import Mathlib

/-!
# Verification of the Z interpreter (src/z.py)

Shallow embedding of the Z language interpreter. The embedding follows the
Python source `src/z.py` closely:

* Runtime `Value` mirrors the Python values flowing through the interpreter:
  ints, strings, bools, lists (materialized argument lists), `None`, and an
  opaque marker for the AST object that `evaluate` returns when a truthy
  `Condition` falls through to `return statement` (src/z.py lines 175-199).
  Host floats (produced by `.`-containing number lexemes and by `get`) are
  carried opaquely as their source lexeme; no claim under verification
  depends on float arithmetic, and operations on floats that the host would
  perform numerically are mapped to the distinguished `ZError.unmodeled`.
* Errors: `ZError.fatal` models the `err(msg)` helper (red message +
  `sys.exit(1)`, src/z.py lines 142-144); `ZError.hostCrash` models an
  uncaught Python exception (`AttributeError`, `IndexError`, `TypeError`,
  `EOFError`) escaping the interpreter; `ZError.outOfFuel` models
  exhausting the host call stack (spec section 5): `run` is the only
  recursion in the source, and the only place fuel is consumed here.
* The visitor's statement wrappers (`statement[0]` / `child[0]` unwrapping
  of one-element `SemanticActionResults`, src/z.py lines 179 and 203) are
  parser plumbing: statement lists are embedded directly as `List Node`.
-/

namespace Z

/-- Runtime values of the interpreter (Python objects in the source). -/
inductive Value where
  | int (n : Int)
  | float (lexeme : String)
  | str (s : String)
  | bool (b : Bool)
  | list (elems : List Value)
  | none
  | astObj
deriving Repr

/-- Error outcomes.  `fatal` is the source's `err` path; `hostCrash` is an
uncaught host exception; `unmodeled` marks host float arithmetic that the
embedding carries opaquely; `outOfFuel` models host stack exhaustion. -/
inductive ZError where
  | fatal (msg : String)
  | hostCrash (kind : String)
  | unmodeled (what : String)
  | outOfFuel
deriving Repr, DecidableEq

/-- The world outside the evaluator: accumulated standard output and the
remaining lines of standard input. -/
structure World where
  output : String
  input : List String
deriving Repr, DecidableEq

/-- AST nodes, mirroring the classes of src/z.py lines 38-74.  `lit` embeds
a literal stored directly in the tree by `visit_number` / `visit_string`;
`assign` stores the target identifier's name (the source stores the whole
`Identifier` node and reads `statement.name.name`, line 169); `fcall`'s
argument is `None` or an `ArgList` node, exactly as `visit_function_call`
builds it (lines 101-105). -/
inductive Node where
  | lit (v : Value)
  | ident (name : String)
  | assign (target : String) (value : Node)
  | cmp (l r : Node)
  | cond (test : Node) (body : List Node)
  | fcall (name : String) (args : Option Node)
  | argList (elems : List Node)
deriving Repr

/-- A user-defined function: `visit_function` stores `None` or a `ParamList`
for `params` (src/z.py lines 114-117); we embed that as `Option (List String)`
holding the raw parameter names. -/
structure Function where
  name : String
  params : Option (List String)
  stmts : List Node
deriving Repr

/-- The four built-ins of the Z language (src/z.py lines 240-246). -/
inductive Builtin where
  | badd
  | bget
  | bnot
  | bprint
deriving Repr, DecidableEq

/-- An entry of the function registry: a user `Function` or a callable
built-in (`run` distinguishes them with `callable(function)`, line 151). -/
inductive FuncDef where
  | builtin (b : Builtin)
  | user (f : Function)
deriving Repr

/-- The function registry: a Python dict from name to definition, embedded
as an insertion-ordered association list. -/
abbrev Registry := List (String × FuncDef)

/-- The per-invocation mutable state of `run`: the `local` dict and the
`return_value` cell (src/z.py lines 148, 155). -/
structure Frame where
  scope : List (String × Value)
  ret : Value
deriving Repr

/-- Python dict assignment `d[k] = v` on an association list: overwrite the
existing entry in place, otherwise append. -/
def dictInsert {α : Type} : List (String × α) → String → α → List (String × α)
  | [], k, v => [(k, v)]
  | (k', v') :: rest, k, v =>
    if k' = k then (k', v) :: rest else (k', v') :: dictInsert rest k v

/-- Python dict lookup / `in` test on an association list. -/
def dictLookup {α : Type} : List (String × α) → String → Option α
  | [], _ => Option.none
  | (k', v') :: rest, k => if k' = k then some v' else dictLookup rest k

/-- Python truthiness of a runtime value (`if return_value:`, `if not ...`).
A float lexeme (sign, digits, one dot) is truthy iff some digit is nonzero,
which matches the host for every lexeme this embedding produces. -/
def truthyB : Value → Bool
  | .int n => n != 0
  | .float lexeme => lexeme.any (fun c => c.isDigit && c != '0')
  | .str s => s != ""
  | .bool b => b
  | .list l => !l.isEmpty
  | .none => false
  | .astObj => true

/-- Python `str(x)` as used by `print(output, end="")` (src/z.py line 227).
Ints and strings are rendered exactly as the host does; bools are handled
before `str` is reached in `zprint` but rendered as Python would; floats,
lists and leaked AST objects never reach `print` in a grammar-conformant
program and are rendered schematically. -/
def displayValue : Value → String
  | .int n => toString n
  | .float lexeme => lexeme
  | .str s => s
  | .bool b => if b then "True" else "False"
  | .list _ => "<list>"
  | .none => "None"
  | .astObj => "<object>"

/-- Python bool-to-int coercion (`True` is `1` under arithmetic). -/
def bint (b : Bool) : Int := if b then 1 else 0

/-- Python `a + b` on runtime values (src/z.py line 238): numeric addition
with bools as ints, string and list concatenation; any other pairing is an
uncaught `TypeError`.  Sums involving host floats are numerically opaque
here and map to `ZError.unmodeled`. -/
def pyAdd : Value → Value → Except ZError Value
  | .int m, .int n => .ok (.int (m + n))
  | .int m, .bool b => .ok (.int (m + bint b))
  | .bool a, .int n => .ok (.int (bint a + n))
  | .bool a, .bool b => .ok (.int (bint a + bint b))
  | .str a, .str b => .ok (.str (a ++ b))
  | .list a, .list b => .ok (.list (a ++ b))
  | .float _, .int _ => .error (.unmodeled "float addition")
  | .float _, .bool _ => .error (.unmodeled "float addition")
  | .float _, .float _ => .error (.unmodeled "float addition")
  | .int _, .float _ => .error (.unmodeled "float addition")
  | .bool _, .float _ => .error (.unmodeled "float addition")
  | _, _ => .error (.hostCrash "TypeError")

/-- Python `a < b` on runtime values (src/z.py line 173): numeric order with
bools as ints, lexicographic order on strings; other pairings raise
`TypeError`.  Comparisons involving host floats (and the grammar-unreachable
list/list case) are numerically opaque and map to `ZError.unmodeled`. -/
def pyLt : Value → Value → Except ZError Value
  | .int m, .int n => .ok (.bool (m < n))
  | .int m, .bool b => .ok (.bool (m < bint b))
  | .bool a, .int n => .ok (.bool (bint a < n))
  | .bool a, .bool b => .ok (.bool (bint a < bint b))
  | .str a, .str b => .ok (.bool (a < b))
  | .float _, .int _ => .error (.unmodeled "float comparison")
  | .float _, .bool _ => .error (.unmodeled "float comparison")
  | .float _, .float _ => .error (.unmodeled "float comparison")
  | .int _, .float _ => .error (.unmodeled "float comparison")
  | .bool _, .float _ => .error (.unmodeled "float comparison")
  | .list _, .list _ => .error (.unmodeled "list comparison")
  | _, _ => .error (.hostCrash "TypeError")

/-- Python `x[0]` as used by `return_value = evaluate(statement.params)[0]`
(src/z.py line 183).  Only `None` (no argument list) or a list reaches this
in the source; subscripting `None` is an uncaught `TypeError`, an empty list
an `IndexError`. -/
def getIndex0 : Value → Except ZError Value
  | .list (h :: _) => .ok h
  | .list [] => .error (.hostCrash "IndexError")
  | .str s =>
    match s.data with
    | c :: _ => .ok (.str (String.mk [c]))
    | [] => .error (.hostCrash "IndexError")
  | _ => .error (.hostCrash "TypeError")

/-- The argument unpacking at the top of `run` (src/z.py line 147):
`args = args[0] if args and args[0] != None else []`.  The value passed is
either `None` (callee had no argument list) or the materialized list; any
other value is unreachable from the source's call sites. -/
def unpackArgs : Value → List Value
  | .list l => l
  | _ => []

/-- Built-in `get` (src/z.py lines 212-217): read one line of input, parse
it as a float if it contains `.` (carried opaquely as its lexeme when it is
a plain signed decimal, which is all the host's `float` acceptance that this
embedding tracks), otherwise as an int, falling back to the raw string.
The `*args` of the source are ignored entirely.  Reading from exhausted
input is Python's uncaught `EOFError`. -/
def isFloatLexeme (s : String) : Bool :=
  let body := if s.startsWith "-" then s.drop 1 else s
  body.any (fun c => c.isDigit) &&
    body.all (fun c => c.isDigit || c = '.') &&
    (body.toList.count '.') = 1

def parseInputLine (content : String) : Value :=
  if content.contains '.' then
    if isFloatLexeme content then .float content else .str content
  else
    match content.toInt? with
    | some n => .int n
    | Option.none => .str content

def zget (_args : List Value) (w : World) : Except ZError (Value × World) :=
  match w.input with
  | [] => .error (.hostCrash "EOFError")
  | line :: rest => .ok (parseInputLine line, { w with input := rest })

/-- Built-in `print` (src/z.py lines 219-227): with no argument Python's
`print()` writes a bare newline; with an argument, bools print as the
literal text `true`/`false`, anything else prints via `str(x)` with
`end=""` (no trailing newline).  Surplus arguments are ignored. -/
def zprint (args : List Value) (w : World) : Except ZError (Value × World) :=
  match args with
  | [] => .ok (Value.none, { w with output := w.output ++ "\n" })
  | out :: _ =>
    match out with
    | .bool b =>
      .ok (Value.none, { w with output := w.output ++ (if b then "true" else "false") })
    | _ => .ok (Value.none, { w with output := w.output ++ displayValue out })

/-- Built-in `not` (src/z.py lines 229-233): fatal with zero arguments,
otherwise the negated truthiness of the first argument; surplus arguments
are ignored. -/
def znot (args : List Value) (w : World) : Except ZError (Value × World) :=
  match args with
  | [] => .error (.fatal "No arguments provided to function not.")
  | a :: _ => .ok (Value.bool (!truthyB a), w)

/-- Built-in `add` (src/z.py lines 235-238): the zero-argument check is
`if not args:`, so exactly one argument slips past it and `args[1]` raises
an uncaught `IndexError`; with two or more arguments the result is the host
sum of the first two. -/
def zadd (args : List Value) (w : World) : Except ZError (Value × World) :=
  match args with
  | [] => .error (.fatal "No arguments provided to function add.")
  | [_] => .error (.hostCrash "IndexError")
  | a :: b :: _ => (pyAdd a b).map (fun v => (v, w))

/-- Dispatch `function(*args)` for a callable registry entry. -/
def applyBuiltin : Builtin → List Value → World → Except ZError (Value × World)
  | .badd => zadd
  | .bget => zget
  | .bnot => znot
  | .bprint => zprint

/-- Scope construction at the top of a user-function invocation
(src/z.py lines 155-161): `local = dict()`, and only `if args:` does the
arity check and parameter binding happen.  With a non-empty argument list
and `params = None` (a parameterless function), `function.params.params`
is an uncaught `AttributeError`; a length mismatch is the fatal arity
error naming the function; otherwise each parameter name is bound to the
corresponding argument by dict assignment. -/
def mkScope (f : Function) (args : List Value) : Except ZError (List (String × Value)) :=
  if args.isEmpty then .ok []
  else
    match f.params with
    | Option.none => .error (.hostCrash "AttributeError")
    | some ps =>
      if args.length ≠ ps.length then
        .error (.fatal ("Incorrect number of arguments to function " ++ f.name))
      else
        .ok ((ps.zip args).foldl (fun d pv => dictInsert d pv.1 pv.2) [])

mutual

/-- The nested `evaluate` of `run` (src/z.py lines 163-199), with the
enclosing invocation's mutable `local` / `return_value` threaded as a
`Frame` and output/input as a `World`.  The first action is the guard
`if return_value: return` — a truthiness test on the pending return value.
Fuel is consumed only by `run` (the source's only recursion). -/
def evaluate (functions : Registry) (fuel : Nat) (n : Node) (f : Frame) (w : World) :
    Except ZError (Value × Frame × World) :=
  if truthyB f.ret then .ok (Value.none, f, w)
  else
    match n with
    | .lit v => .ok (v, f, w)
    | .assign t e => do
      let (v, f1, w1) ← evaluate functions fuel e f w
      .ok (Value.none, { f1 with scope := dictInsert f1.scope t v }, w1)
    | .cmp l r => do
      let (a, f1, w1) ← evaluate functions fuel l f w
      let (b, f2, w2) ← evaluate functions fuel r f1 w1
      let c ← pyLt a b
      .ok (c, f2, w2)
    | .cond t body => do
      let (v, f1, w1) ← evaluate functions fuel t f w
      if truthyB v then do
        let (f2, w2) ← evalSeq functions fuel body f1 w1
        .ok (Value.astObj, f2, w2)
      else
        .ok (Value.none, f1, w1)
    | .ident name =>
      match dictLookup f.scope name with
      | some v => .ok (v, f, w)
      | Option.none => .error (.fatal ("Undefined variable " ++ name))
    | .argList es => do
      let (vs, f1, w1) ← evalList functions fuel es f w
      .ok (Value.list vs, f1, w1)
    | .fcall name ps =>
      if name = "return" then do
        let (pv, f1, w1) ← evalParams functions fuel ps f w
        let rv ← getIndex0 pv
        .ok (Value.none, { f1 with ret := rv }, w1)
      else
        match dictLookup functions name with
        | Option.none => .error (.fatal ("Undefined function " ++ name))
        | some target => do
          let (pv, f1, w1) ← evalParams functions fuel ps f w
          let (rv, w2) ← run functions fuel target (unpackArgs pv) w1
          .ok (rv, f1, w2)
termination_by (fuel, 1, sizeOf n)

/-- `evaluate(statement.params)` where `params` is `None` or an `ArgList`
node: evaluating Python `None` falls through every type test and returns
`None` itself. -/
def evalParams (functions : Registry) (fuel : Nat) (o : Option Node) (f : Frame) (w : World) :
    Except ZError (Value × Frame × World) :=
  match o with
  | Option.none => .ok (Value.none, f, w)
  | some p => evaluate functions fuel p f w
termination_by (fuel, 1, sizeOf o)

/-- `list(map(evaluate, statement.params))` for an `ArgList`
(src/z.py lines 195-197): evaluate each element left to right. -/
def evalList (functions : Registry) (fuel : Nat) (l : List Node) (f : Frame) (w : World) :
    Except ZError (List Value × Frame × World) :=
  match l with
  | [] => .ok ([], f, w)
  | e :: es => do
    let (v, f1, w1) ← evaluate functions fuel e f w
    let (vs, f2, w2) ← evalList functions fuel es f1 w1
    .ok (v :: vs, f2, w2)
termination_by (fuel, 1, sizeOf l)

/-- The `Condition` body loop (src/z.py lines 178-179): evaluate each body
statement in order, discarding results, with no break. -/
def evalSeq (functions : Registry) (fuel : Nat) (l : List Node) (f : Frame) (w : World) :
    Except ZError (Frame × World) :=
  match l with
  | [] => .ok (f, w)
  | s :: rest => do
    let (_, f1, w1) ← evaluate functions fuel s f w
    evalSeq functions fuel rest f1 w1
termination_by (fuel, 1, sizeOf l)

/-- The top-level statement loop of `run` (src/z.py lines 201-207):
evaluate each statement, breaking as soon as the pending return value is
truthy. -/
def runBody (functions : Registry) (fuel : Nat) (l : List Node) (f : Frame) (w : World) :
    Except ZError (Frame × World) :=
  match l with
  | [] => .ok (f, w)
  | s :: rest => do
    let (_, f1, w1) ← evaluate functions fuel s f w
    if truthyB f1.ret then .ok (f1, w1) else runBody functions fuel rest f1 w1
termination_by (fuel, 1, sizeOf l)

/-- `run(function, functions, *args)` (src/z.py lines 146-209): dispatch a
callable directly; for a user function, build the local scope (see
`mkScope`), run the statement list, and return the final pending return
value (`None` if no truthy `return` occurred).  Fuel models the host call
stack: each nested invocation consumes one unit. -/
def run (functions : Registry) (fuel : Nat) (target : FuncDef) (args : List Value) (w : World) :
    Except ZError (Value × World) :=
  match fuel with
  | 0 => .error .outOfFuel
  | fuel' + 1 =>
    match target with
    | .builtin b => applyBuiltin b args w
    | .user f => do
      let scope0 ← mkScope f args
      let (f1, w1) ← runBody functions fuel' f.stmts ⟨scope0, Value.none⟩ w
      .ok (f1.ret, w1)
termination_by (fuel, 0, 0)

end

/-- The registry as initialized in `main` before visiting the parse tree
(src/z.py lines 241-246): the four built-ins, in dict-literal order. -/
def initFunctions : Registry :=
  [("add", .builtin .badd), ("get", .builtin .bget),
   ("not", .builtin .bnot), ("print", .builtin .bprint)]

/-- One iteration of `visit_program`'s loop (src/z.py lines 130-133): for a
parsed function, remember it if it is named `main` (later ones replace
earlier ones) and insert/overwrite its registry entry. -/
def pstep (acc : Registry × Option Function) (fn : Function) : Registry × Option Function :=
  (dictInsert acc.1 fn.name (.user fn),
   if fn.name = "main" then some fn else acc.2)

/-- The loop of `visit_program` over all parsed functions. -/
def programFold (fns : List Function) : Registry × Option Function :=
  fns.foldl pstep (initFunctions, Option.none)

/-- The registry after `visit_program`'s loop. -/
def buildRegistry (fns : List Function) : Registry := (programFold fns).1

/-- The `main` variable after `visit_program`'s loop. -/
def findMain (fns : List Function) : Option Function := (programFold fns).2

/-- The textually last declaration with a given name, if any. -/
def lastDecl : List Function → String → Option Function
  | [], _ => Option.none
  | fn :: rest, n =>
    match lastDecl rest n with
    | some g => some g
    | Option.none => if fn.name = n then some fn else Option.none

/-- `visit_program` (src/z.py lines 128-140): build the registry and find
`main`; its absence is the fatal missing-entry-point error, otherwise run
`main` with no arguments.  (The `try`/`except` around `run` re-raises the
exception unchanged, so host crashes propagate.) -/
def visitProgram (fuel : Nat) (fns : List Function) (w : World) :
    Except ZError (Value × World) :=
  match (programFold fns).2 with
  | Option.none => .error (.fatal "Program needs a main function.")
  | some m => run (programFold fns).1 fuel (.user m) [] w

/-- The set of names present in a registry. -/
def registryNames (r : Registry) : Finset String := (r.map Prod.fst).toFinset

/-- The names of the four built-ins. -/
def builtinNames : Finset String := registryNames initFunctions

/-- Grammar-generated expression nodes (productions `expression`, `atom`,
`funccall` of src/z.py lines 26-30): literals, identifiers, comparisons,
and function calls whose argument list holds expressions.  `Assignment`
and `Condition` nodes cannot occur inside an expression. -/
inductive IsExpr : Node → Prop where
  | lit (v : Value) : IsExpr (.lit v)
  | ident (s : String) : IsExpr (.ident s)
  | cmp {l r : Node} : IsExpr l → IsExpr r → IsExpr (.cmp l r)
  | callNone (n : String) : IsExpr (.fcall n Option.none)
  | callSome (n : String) {l : List Node} (helems : ∀ e ∈ l, IsExpr e) :
      IsExpr (.fcall n (some (.argList l)))

/-! ## Unfolding equations for the interpreter -/

theorem evaluate_guard {functions : Registry} {fuel : Nat} {n : Node} {f : Frame} {w : World}
    (h : truthyB f.ret = true) :
    evaluate functions fuel n f w = .ok (Value.none, f, w) := by
  rw [evaluate.eq_def]; simp [h]

theorem evaluate_lit {functions : Registry} {fuel : Nat} {f : Frame} {w : World}
    (h : truthyB f.ret = false) (v : Value) :
    evaluate functions fuel (.lit v) f w = .ok (v, f, w) := by
  rw [evaluate.eq_def]; simp [h]

theorem evaluate_ident {functions : Registry} {fuel : Nat} {f : Frame} {w : World}
    (h : truthyB f.ret = false) (name : String) :
    evaluate functions fuel (.ident name) f w =
      match dictLookup f.scope name with
      | some v => .ok (v, f, w)
      | Option.none => .error (.fatal ("Undefined variable " ++ name)) := by
  rw [evaluate.eq_def]; simp [h]

theorem evaluate_assign {functions : Registry} {fuel : Nat} {f : Frame} {w : World}
    (h : truthyB f.ret = false) (t : String) (e : Node) :
    evaluate functions fuel (.assign t e) f w = (do
      let (v, f1, w1) ← evaluate functions fuel e f w
      .ok (Value.none, { f1 with scope := dictInsert f1.scope t v }, w1)) := by
  rw [evaluate.eq_def]; simp [h]

theorem evaluate_cmp {functions : Registry} {fuel : Nat} {f : Frame} {w : World}
    (h : truthyB f.ret = false) (l r : Node) :
    evaluate functions fuel (.cmp l r) f w = (do
      let (a, f1, w1) ← evaluate functions fuel l f w
      let (b, f2, w2) ← evaluate functions fuel r f1 w1
      let c ← pyLt a b
      .ok (c, f2, w2)) := by
  rw [evaluate.eq_def]; simp [h]

theorem evaluate_cond {functions : Registry} {fuel : Nat} {f : Frame} {w : World}
    (h : truthyB f.ret = false) (t : Node) (body : List Node) :
    evaluate functions fuel (.cond t body) f w = (do
      let (v, f1, w1) ← evaluate functions fuel t f w
      if truthyB v then do
        let (f2, w2) ← evalSeq functions fuel body f1 w1
        .ok (Value.astObj, f2, w2)
      else
        .ok (Value.none, f1, w1)) := by
  rw [evaluate.eq_def]; simp [h]

theorem evaluate_argList {functions : Registry} {fuel : Nat} {f : Frame} {w : World}
    (h : truthyB f.ret = false) (es : List Node) :
    evaluate functions fuel (.argList es) f w = (do
      let (vs, f1, w1) ← evalList functions fuel es f w
      .ok (Value.list vs, f1, w1)) := by
  rw [evaluate.eq_def]; simp [h]

theorem evaluate_return {functions : Registry} {fuel : Nat} {f : Frame} {w : World}
    (h : truthyB f.ret = false) (ps : Option Node) :
    evaluate functions fuel (.fcall "return" ps) f w = (do
      let (pv, f1, w1) ← evalParams functions fuel ps f w
      let rv ← getIndex0 pv
      .ok (Value.none, { f1 with ret := rv }, w1)) := by
  rw [evaluate.eq_def]; simp [h]

theorem evaluate_fcall_undef {functions : Registry} {fuel : Nat} {f : Frame} {w : World}
    {name : String} (h : truthyB f.ret = false) (hname : name ≠ "return")
    (hlook : dictLookup functions name = Option.none) (ps : Option Node) :
    evaluate functions fuel (.fcall name ps) f w =
      .error (.fatal ("Undefined function " ++ name)) := by
  rw [evaluate.eq_def]; simp [h, hname, hlook]

theorem evaluate_fcall {functions : Registry} {fuel : Nat} {f : Frame} {w : World}
    {name : String} {target : FuncDef} (h : truthyB f.ret = false) (hname : name ≠ "return")
    (hlook : dictLookup functions name = some target) (ps : Option Node) :
    evaluate functions fuel (.fcall name ps) f w = (do
      let (pv, f1, w1) ← evalParams functions fuel ps f w
      let (rv, w2) ← run functions fuel target (unpackArgs pv) w1
      .ok (rv, f1, w2)) := by
  rw [evaluate.eq_def]; simp [h, hname, hlook]

theorem evalParams_none {functions : Registry} {fuel : Nat} {f : Frame} {w : World} :
    evalParams functions fuel Option.none f w = .ok (Value.none, f, w) := by
  rw [evalParams.eq_def]

theorem evalParams_some {functions : Registry} {fuel : Nat} {f : Frame} {w : World} (p : Node) :
    evalParams functions fuel (some p) f w = evaluate functions fuel p f w := by
  rw [evalParams.eq_def]

theorem evalList_nil {functions : Registry} {fuel : Nat} {f : Frame} {w : World} :
    evalList functions fuel [] f w = .ok ([], f, w) := by
  rw [evalList.eq_def]

theorem evalList_cons {functions : Registry} {fuel : Nat} {f : Frame} {w : World}
    (e : Node) (es : List Node) :
    evalList functions fuel (e :: es) f w = (do
      let (v, f1, w1) ← evaluate functions fuel e f w
      let (vs, f2, w2) ← evalList functions fuel es f1 w1
      .ok (v :: vs, f2, w2)) := by
  rw [evalList.eq_def]

theorem evalSeq_nil {functions : Registry} {fuel : Nat} {f : Frame} {w : World} :
    evalSeq functions fuel [] f w = .ok (f, w) := by
  rw [evalSeq.eq_def]

theorem evalSeq_cons {functions : Registry} {fuel : Nat} {f : Frame} {w : World}
    (s : Node) (rest : List Node) :
    evalSeq functions fuel (s :: rest) f w = (do
      let (_, f1, w1) ← evaluate functions fuel s f w
      evalSeq functions fuel rest f1 w1) := by
  rw [evalSeq.eq_def]

theorem runBody_nil {functions : Registry} {fuel : Nat} {f : Frame} {w : World} :
    runBody functions fuel [] f w = .ok (f, w) := by
  rw [runBody.eq_def]

theorem runBody_cons {functions : Registry} {fuel : Nat} {f : Frame} {w : World}
    (s : Node) (rest : List Node) :
    runBody functions fuel (s :: rest) f w = (do
      let (_, f1, w1) ← evaluate functions fuel s f w
      if truthyB f1.ret then .ok (f1, w1) else runBody functions fuel rest f1 w1) := by
  rw [runBody.eq_def]

theorem run_zero {functions : Registry} {target : FuncDef} {args : List Value} {w : World} :
    run functions 0 target args w = .error .outOfFuel := by
  rw [run.eq_def]

theorem run_builtin {functions : Registry} {fuel : Nat} {args : List Value} {w : World}
    (b : Builtin) :
    run functions (fuel + 1) (.builtin b) args w = applyBuiltin b args w := by
  rw [run.eq_def]

theorem run_user {functions : Registry} {fuel : Nat} {args : List Value} {w : World}
    (f : Function) :
    run functions (fuel + 1) (.user f) args w = (do
      let scope0 ← mkScope f args
      let (f1, w1) ← runBody functions fuel f.stmts ⟨scope0, Value.none⟩ w
      .ok (f1.ret, w1)) := by
  rw [run.eq_def]

/-- Once a truthy return value is pending, the `Condition` body loop has
no effect. -/
theorem evalSeq_guard {functions : Registry} {fuel : Nat} {f : Frame} {w : World}
    (l : List Node) (h : truthyB f.ret = true) :
    evalSeq functions fuel l f w = .ok (f, w) := by
  induction l with
  | nil => exact evalSeq_nil
  | cons s rest ih =>
    rw [evalSeq_cons, evaluate_guard h]
    simpa using ih

/-- Once a truthy return value is pending, the top-level statement loop
stops at once with the frame unchanged. -/
theorem runBody_guard {functions : Registry} {fuel : Nat} {f : Frame} {w : World}
    (l : List Node) (h : truthyB f.ret = true) :
    runBody functions fuel l f w = .ok (f, w) := by
  cases l with
  | nil => exact runBody_nil
  | cons s rest =>
    rw [runBody_cons, evaluate_guard h]
    simp [bind, Except.bind, h]

/-! ## Dictionary and registry lemmas -/

theorem dictLookup_insert_self {α : Type} (d : List (String × α)) (k : String) (v : α) :
    dictLookup (dictInsert d k v) k = some v := by
  induction d with
  | nil => simp [dictInsert, dictLookup]
  | cons hd tl ih =>
    obtain ⟨k', v'⟩ := hd
    by_cases h : k' = k
    · simp [dictInsert, dictLookup, h]
    · simp [dictInsert, dictLookup, h, ih]

theorem dictLookup_insert_other {α : Type} (d : List (String × α)) {k n : String} (v : α)
    (h : k ≠ n) : dictLookup (dictInsert d k v) n = dictLookup d n := by
  induction d with
  | nil => simp [dictInsert, dictLookup, h]
  | cons hd tl ih =>
    obtain ⟨k', v'⟩ := hd
    by_cases hk : k' = k
    · subst hk; simp [dictInsert, dictLookup, h]
    · simp [dictInsert, dictLookup, hk, ih]

theorem registryNames_cons (k : String) (v : FuncDef) (tl : Registry) :
    registryNames ((k, v) :: tl) = insert k (registryNames tl) := by
  simp [registryNames]

theorem registryNames_insert (d : Registry) (k : String) (v : FuncDef) :
    registryNames (dictInsert d k v) = insert k (registryNames d) := by
  induction d with
  | nil => simp [registryNames, dictInsert]
  | cons hd tl ih =>
    obtain ⟨k', v'⟩ := hd
    by_cases h : k' = k
    · subst h
      rw [show dictInsert ((k', v') :: tl) k' v = (k', v) :: tl by simp [dictInsert]]
      rw [registryNames_cons, registryNames_cons]
      simp
    · rw [show dictInsert ((k', v') :: tl) k v = (k', v') :: dictInsert tl k v by
        simp [dictInsert, h]]
      rw [registryNames_cons, registryNames_cons, ih, Finset.Insert.comm]

/-- `lastDecl` only returns functions that carry the looked-up name. -/
theorem lastDecl_name {fns : List Function} {n : String} {g : Function}
    (h : lastDecl fns n = some g) : g.name = n := by
  induction fns with
  | nil => simp [lastDecl] at h
  | cons fn rest ih =>
    rw [lastDecl] at h
    cases hr : lastDecl rest n with
    | some g' => rw [hr] at h; exact ih (hr.trans h)
    | none =>
      rw [hr] at h
      by_cases hn : fn.name = n
      · simp [hn] at h; rw [← h]; exact hn
      · simp [hn] at h

/-- The registry component of the visitor's loop is the plain
insert-overwrite fold. -/
theorem foldl_pstep_fst (fns : List Function) :
    ∀ acc : Registry × Option Function,
      (fns.foldl pstep acc).1 =
        fns.foldl (fun r fn => dictInsert r fn.name (.user fn)) acc.1 := by
  induction fns with
  | nil => intro acc; rfl
  | cons fn rest ih => intro acc; rw [List.foldl_cons, List.foldl_cons, ih]; rfl

/-- The `main` component of the visitor's loop is the textually last
declaration named `main`. -/
theorem foldl_pstep_snd (fns : List Function) :
    ∀ acc : Registry × Option Function,
      (fns.foldl pstep acc).2 =
        match lastDecl fns "main" with
        | some g => some g
        | Option.none => acc.2 := by
  induction fns with
  | nil => intro acc; rfl
  | cons fn rest ih =>
    intro acc
    rw [List.foldl_cons, ih, lastDecl]
    cases hr : lastDecl rest "main" with
    | some g => rfl
    | none =>
      by_cases hn : fn.name = "main" <;> simp [pstep, hn]

/-- Looking up a name in the folded registry returns the textually last
declaration with that name, falling back to the initial registry. -/
theorem regFold_lookup (fns : List Function) :
    ∀ (d : Registry) (n : String),
      dictLookup (fns.foldl (fun r fn => dictInsert r fn.name (.user fn)) d) n =
        match lastDecl fns n with
        | some g => some (.user g)
        | Option.none => dictLookup d n := by
  induction fns with
  | nil => intro d n; rfl
  | cons fn rest ih =>
    intro d n
    rw [List.foldl_cons, ih, lastDecl]
    cases hr : lastDecl rest n with
    | some g => rfl
    | none =>
      by_cases hn : fn.name = n
      · subst hn; simp [dictLookup_insert_self]
      · simp [hn, dictLookup_insert_other _ _ hn]

/-- The names of the folded registry are the initial names plus all
declared names. -/
theorem regFold_names (fns : List Function) :
    ∀ d : Registry,
      registryNames (fns.foldl (fun r fn => dictInsert r fn.name (.user fn)) d) =
        registryNames d ∪ (fns.map Function.name).toFinset := by
  induction fns with
  | nil => intro d; simp
  | cons fn rest ih =>
    intro d
    rw [List.foldl_cons, ih, registryNames_insert]
    ext x
    simp only [Finset.mem_union, Finset.mem_insert, List.mem_toFinset, List.map_cons,
      List.mem_cons]
    tauto

/-! ## Expressions never write the local scope

`evaluate` mutates `local` only in its `Assignment` branch, and the grammar
admits no `Assignment` inside an expression, so evaluating any
grammar-generated expression leaves the invocation's scope untouched
(nested calls build their own scopes and `run` never returns a frame). -/

theorem scope_aux : ∀ k : Nat,
    (∀ n : Node, sizeOf n ≤ k → IsExpr n →
      ∀ (functions : Registry) (fuel : Nat) (f : Frame) (w : World) (v : Value)
        (f' : Frame) (w' : World),
        evaluate functions fuel n f w = .ok (v, f', w') → f'.scope = f.scope) ∧
    (∀ l : List Node, sizeOf l ≤ k → (∀ e ∈ l, IsExpr e) →
      ∀ (functions : Registry) (fuel : Nat) (f : Frame) (w : World) (vs : List Value)
        (f' : Frame) (w' : World),
        evalList functions fuel l f w = .ok (vs, f', w') → f'.scope = f.scope) := by
  intro k
  induction k using Nat.strong_induction_on with
  | _ k ih =>
    constructor
    · intro n hn hexpr functions fuel f w v f' w' heval
      cases hret : truthyB f.ret with
      | true =>
        rw [evaluate_guard hret] at heval
        simp only [Except.ok.injEq, Prod.mk.injEq] at heval
        rw [← heval.2.1]
      | false =>
        cases hexpr with
        | lit u =>
          rw [evaluate_lit hret] at heval
          simp only [Except.ok.injEq, Prod.mk.injEq] at heval
          rw [← heval.2.1]
        | ident s =>
          rw [evaluate_ident hret] at heval
          cases hlook : dictLookup f.scope s with
          | some u =>
            rw [hlook] at heval
            simp only [Except.ok.injEq, Prod.mk.injEq] at heval
            rw [← heval.2.1]
          | none => rw [hlook] at heval; cases heval
        | @cmp l r hl hr =>
          rw [evaluate_cmp hret] at heval
          cases h1 : evaluate functions fuel l f w with
          | error e => rw [h1] at heval; simp [bind, Except.bind] at heval
          | ok res1 =>
            obtain ⟨a, f1, w1⟩ := res1
            rw [h1] at heval
            simp only [bind, Except.bind] at heval
            cases h2 : evaluate functions fuel r f1 w1 with
            | error e => rw [h2] at heval; simp at heval
            | ok res2 =>
              obtain ⟨b, f2, w2⟩ := res2
              rw [h2] at heval
              simp only at heval
              cases h3 : pyLt a b with
              | error e => rw [h3] at heval; simp at heval
              | ok c =>
                rw [h3] at heval
                simp only [Except.ok.injEq, Prod.mk.injEq] at heval
                have e1 : f1.scope = f.scope := by
                  have hlt : sizeOf l < k := by
                    have := Node.cmp.sizeOf_spec l r
                    omega
                  exact (ih (sizeOf l) hlt).1 l le_rfl hl functions fuel f w a f1 w1 h1
                have e2 : f2.scope = f1.scope := by
                  have hlt : sizeOf r < k := by
                    have := Node.cmp.sizeOf_spec l r
                    omega
                  exact (ih (sizeOf r) hlt).1 r le_rfl hr functions fuel f1 w1 b f2 w2 h2
                rw [← heval.2.1, e2, e1]
        | callNone s =>
          by_cases hs : s = "return"
          · subst hs
            rw [evaluate_return hret, evalParams_none] at heval
            simp [bind, Except.bind, getIndex0] at heval
          · cases hlook : dictLookup functions s with
            | none => rw [evaluate_fcall_undef hret hs hlook] at heval; cases heval
            | some target =>
              rw [evaluate_fcall hret hs hlook, evalParams_none] at heval
              simp only [bind, Except.bind] at heval
              cases h2 : run functions fuel target (unpackArgs Value.none) w with
              | error e => rw [h2] at heval; simp at heval
              | ok res2 =>
                obtain ⟨rv, w2⟩ := res2
                rw [h2] at heval
                simp only [Except.ok.injEq, Prod.mk.injEq] at heval
                rw [← heval.2.1]
        | @callSome s es helems =>
          have hes : sizeOf es < k := by
            have h1 := Node.fcall.sizeOf_spec s (some (Node.argList es))
            have h2 : sizeOf (some (Node.argList es)) = 1 + sizeOf (Node.argList es) := by
              simp
            have h3 := Node.argList.sizeOf_spec es
            omega
          by_cases hs : s = "return"
          · subst hs
            rw [evaluate_return hret, evalParams_some, evaluate_argList hret] at heval
            cases h1 : evalList functions fuel es f w with
            | error e => rw [h1] at heval; simp [bind, Except.bind] at heval
            | ok res1 =>
              obtain ⟨vs, f1, w1⟩ := res1
              rw [h1] at heval
              simp only [bind, Except.bind] at heval
              cases hvs : vs with
              | nil => rw [hvs] at heval; simp [getIndex0] at heval
              | cons v0 vrest =>
                rw [hvs] at heval
                simp only [getIndex0] at heval
                simp only [Except.ok.injEq, Prod.mk.injEq] at heval
                have e1 : f1.scope = f.scope :=
                  (ih (sizeOf es) hes).2 es le_rfl helems functions fuel f w vs f1 w1 h1
                rw [← heval.2.1]
                exact e1
          · cases hlook : dictLookup functions s with
            | none => rw [evaluate_fcall_undef hret hs hlook] at heval; cases heval
            | some target =>
              rw [evaluate_fcall hret hs hlook, evalParams_some,
                evaluate_argList hret] at heval
              cases h1 : evalList functions fuel es f w with
              | error e => rw [h1] at heval; simp [bind, Except.bind] at heval
              | ok res1 =>
                obtain ⟨vs, f1, w1⟩ := res1
                rw [h1] at heval
                simp only [bind, Except.bind] at heval
                cases h2 : run functions fuel target (unpackArgs (Value.list vs)) w1 with
                | error e => rw [h2] at heval; simp at heval
                | ok res2 =>
                  obtain ⟨rv, w2⟩ := res2
                  rw [h2] at heval
                  simp only [Except.ok.injEq, Prod.mk.injEq] at heval
                  have e1 : f1.scope = f.scope :=
                    (ih (sizeOf es) hes).2 es le_rfl helems functions fuel f w vs f1 w1 h1
                  rw [← heval.2.1]
                  exact e1
    · intro l hl hall functions fuel f w vs f' w' heval
      cases l with
      | nil =>
        rw [evalList_nil] at heval
        simp only [Except.ok.injEq, Prod.mk.injEq] at heval
        rw [← heval.2.1]
      | cons e es =>
        rw [evalList_cons] at heval
        cases h1 : evaluate functions fuel e f w with
        | error err => rw [h1] at heval; simp [bind, Except.bind] at heval
        | ok res1 =>
          obtain ⟨a, f1, w1⟩ := res1
          rw [h1] at heval
          simp only [bind, Except.bind] at heval
          cases h2 : evalList functions fuel es f1 w1 with
          | error err => rw [h2] at heval; simp at heval
          | ok res2 =>
            obtain ⟨vs2, f2, w2⟩ := res2
            rw [h2] at heval
            simp only [Except.ok.injEq, Prod.mk.injEq] at heval
            have he : sizeOf e < k ∧ sizeOf es < k := by
              have := List.cons.sizeOf_spec e es
              constructor <;> omega
            have e1 : f1.scope = f.scope :=
              (ih (sizeOf e) he.1).1 e le_rfl (hall e (by simp)) functions fuel f w a f1 w1 h1
            have e2 : f2.scope = f1.scope :=
              (ih (sizeOf es) he.2).2 es le_rfl (fun x hx => hall x (by simp [hx]))
                functions fuel f1 w1 vs2 f2 w2 h2
            rw [← heval.2.1, e2, e1]

/-- Evaluating a grammar-generated expression never changes the local
scope. -/
theorem evaluate_expr_scope {functions : Registry} {fuel : Nat} {n : Node} {f : Frame}
    {w : World} {v : Value} {f' : Frame} {w' : World} (hexpr : IsExpr n)
    (heval : evaluate functions fuel n f w = .ok (v, f', w')) : f'.scope = f.scope :=
  (scope_aux (sizeOf n)).1 n le_rfl hexpr functions fuel f w v f' w' heval

/-! ## Claims -/

/-- Claim C1, counterexample: calling the user function `f($x)` with zero
arguments does not raise the claimed fatal arity error naming `f` — the
`if args:` guard at src/z.py line 156 skips the arity check entirely, so
the invocation completes normally (here with an empty body, returning the
absent value); and calling the parameterless `h()` with one argument is an
uncaught host `AttributeError` (`function.params` is `None` at line 157),
not the named arity error either. -/
theorem claim_C1_counterexample :
    run initFunctions 2 (.user ⟨"f", some ["$x"], []⟩) [] ⟨"", []⟩
        = .ok (Value.none, ⟨"", []⟩) ∧
    run initFunctions 2 (.user ⟨"f", some ["$x"], []⟩) [] ⟨"", []⟩
        ≠ .error (.fatal "Incorrect number of arguments to function f") ∧
    run initFunctions 1 (.user ⟨"h", Option.none, []⟩) [Value.int 1] ⟨"", []⟩
        = .error (.hostCrash "AttributeError") ∧
    run initFunctions 1 (.user ⟨"h", Option.none, []⟩) [Value.int 1] ⟨"", []⟩
        ≠ .error (.fatal "Incorrect number of arguments to function h") := by
  have h : run initFunctions 2 (.user ⟨"f", some ["$x"], []⟩) [] ⟨"", []⟩
      = .ok (Value.none, ⟨"", []⟩) := by
    simp [run, runBody, mkScope, bind, Except.bind]
  have h2 : run initFunctions 1 (.user ⟨"h", Option.none, []⟩) [Value.int 1] ⟨"", []⟩
      = .error (.hostCrash "AttributeError") := by
    simp [run, mkScope, bind, Except.bind]
  refine ⟨h, ?_, h2, ?_⟩
  · rw [h]
    intro hc
    cases hc
  · rw [h2]
    intro hc
    injection hc with hc2
    cases hc2

/-- Claim C1 (amended): the arity check happens only when at least one
argument value is supplied.  With zero arguments no check occurs and the
body runs against an empty local scope regardless of the parameter list;
with arguments and no parameter list the run aborts with a host
`AttributeError` crash (not the named arity error); with arguments and a
parameter list, a count mismatch is the fatal arity error naming the
function, and on a match a fresh scope binds each parameter to the
corresponding argument. -/
theorem claim_C1_amended (functions : Registry) (fuel : Nat) (fn : Function)
    (args : List Value) (w : World) :
    (args = [] →
      run functions (fuel + 1) (.user fn) args w = (do
        let (f1, w1) ← runBody functions fuel fn.stmts ⟨[], Value.none⟩ w
        Except.ok (f1.ret, w1))) ∧
    (args ≠ [] → fn.params = Option.none →
      run functions (fuel + 1) (.user fn) args w = .error (.hostCrash "AttributeError")) ∧
    (∀ ps, args ≠ [] → fn.params = some ps → args.length ≠ ps.length →
      run functions (fuel + 1) (.user fn) args w =
        .error (.fatal ("Incorrect number of arguments to function " ++ fn.name))) ∧
    (∀ ps, args ≠ [] → fn.params = some ps → args.length = ps.length →
      run functions (fuel + 1) (.user fn) args w = (do
        let (f1, w1) ← runBody functions fuel fn.stmts
          ⟨(ps.zip args).foldl (fun d pv => dictInsert d pv.1 pv.2) [], Value.none⟩ w
        Except.ok (f1.ret, w1))) := by
  have hempty : ∀ l : List Value, l ≠ [] → l.isEmpty = false := by
    intro l hl
    cases l with
    | nil => exact absurd rfl hl
    | cons x xs => rfl
  refine ⟨?_, ?_, ?_, ?_⟩
  · intro h
    subst h
    rw [run_user]
    simp [mkScope, bind, Except.bind]
  · intro hne hparams
    rw [run_user]
    simp [mkScope, hempty args hne, hparams, bind, Except.bind]
  · intro ps hne hparams hlen
    rw [run_user]
    simp [mkScope, hempty args hne, hparams, hlen, bind, Except.bind]
  · intro ps hne hparams hlen
    rw [run_user]
    simp [mkScope, hempty args hne, hparams, hlen, bind, Except.bind]

/-- Claim C1, witness: a two-parameter function called with one argument is
the fatal arity error naming the function. -/
theorem claim_C1_witness :
    run initFunctions 1 (.user ⟨"g", some ["$x", "$y"], []⟩) [Value.int 1] ⟨"", []⟩
      = .error (.fatal ("Incorrect number of arguments to function " ++ "g")) := by
  exact (claim_C1_amended initFunctions 0 ⟨"g", some ["$x", "$y"], []⟩ [Value.int 1]
    ⟨"", []⟩).2.2.1 ["$x", "$y"] (by simp) rfl (by simp)

/-- Claim C2 (confirmed): a `return` whose argument evaluates to a falsy
value sets the pending return value but does not halt execution — the
short-circuit after each statement is `if return_value:` (a truthiness
test, src/z.py lines 165 and 205), so the remaining statements of the
function body still run. -/
theorem claim_C2 (functions : Registry) (fuel : Nat) (ps : Option Node)
    (f : Frame) (w : World) (pv v : Value) (f1 : Frame) (w1 : World)
    (rest : List Node)
    (hret : truthyB f.ret = false)
    (hargs : evalParams functions fuel ps f w = .ok (pv, f1, w1))
    (hv : getIndex0 pv = .ok v)
    (hfalsy : truthyB v = false) :
    evaluate functions fuel (.fcall "return" ps) f w
        = .ok (Value.none, { f1 with ret := v }, w1) ∧
    runBody functions fuel (Node.fcall "return" ps :: rest) f w
        = runBody functions fuel rest { f1 with ret := v } w1 := by
  have h1 : evaluate functions fuel (.fcall "return" ps) f w
      = .ok (Value.none, { f1 with ret := v }, w1) := by
    rw [evaluate_return hret, hargs]
    simp [bind, Except.bind, hv]
  refine ⟨h1, ?_⟩
  rw [runBody_cons, h1]
  simp [bind, Except.bind, hfalsy]

/-- Claim C2, witness: `return(0)` sets the pending return value to `0`
and the statement after it still runs. -/
theorem claim_C2_witness :
    evaluate [] 0 (.fcall "return" (some (.argList [.lit (.int 0)])))
        ⟨[], Value.none⟩ ⟨"", []⟩
      = .ok (Value.none, ⟨[], Value.int 0⟩, ⟨"", []⟩) ∧
    runBody [] 0 [Node.fcall "return" (some (.argList [.lit (.int 0)])),
        .assign "$a" (.lit (.int 7))] ⟨[], Value.none⟩ ⟨"", []⟩
      = runBody [] 0 [Node.assign "$a" (.lit (.int 7))] ⟨[], Value.int 0⟩ ⟨"", []⟩ := by
  have hargs : evalParams [] 0 (some (.argList [.lit (.int 0)]))
      ⟨[], Value.none⟩ ⟨"", []⟩
      = .ok (Value.list [Value.int 0], ⟨[], Value.none⟩, ⟨"", []⟩) := by
    simp [evalParams, evaluate, evalList, bind, Except.bind, truthyB]
  exact claim_C2 [] 0 (some (.argList [.lit (.int 0)])) ⟨[], Value.none⟩ ⟨"", []⟩
    (Value.list [Value.int 0]) (Value.int 0) ⟨[], Value.none⟩ ⟨"", []⟩
    [Node.assign "$a" (.lit (.int 7))] rfl hargs rfl (by decide)

/-- Claim C3, counterexample: `print` invoked with no argument does not
write nothing — Python's bare `print()` at src/z.py line 221 emits a
newline. -/
theorem claim_C3_counterexample :
    zprint [] ⟨"", []⟩ = .ok (Value.none, ⟨"\n", []⟩) ∧ ("\n" : String) ≠ "" := by
  exact ⟨rfl, by decide⟩

/-- Claim C3 (amended): `print` with no argument writes a single newline;
with an argument it writes that value's display form with no trailing
newline, and booleans display as the literal text `true`/`false` rather
than the host's `True`/`False`. -/
theorem claim_C3_amended (args : List Value) (w : World) :
    (args = [] →
      zprint args w = .ok (Value.none, { w with output := w.output ++ "\n" })) ∧
    (∀ b rest, args = Value.bool b :: rest →
      zprint args w =
        .ok (Value.none, { w with output := w.output ++ (if b then "true" else "false") })) ∧
    (∀ v rest, args = v :: rest → (∀ b, v ≠ Value.bool b) →
      zprint args w = .ok (Value.none, { w with output := w.output ++ displayValue v })) := by
  refine ⟨?_, ?_, ?_⟩
  · intro h; subst h; rfl
  · intro b rest h; subst h; rfl
  · intro v rest h hnb
    subst h
    cases v with
    | bool b => exact absurd rfl (hnb b)
    | int n => rfl
    | float s => rfl
    | str s => rfl
    | list l => rfl
    | none => rfl
    | astObj => rfl

/-- Claim C3, witness: printing the boolean true writes the literal text
`true`. -/
theorem claim_C3_witness :
    zprint [Value.bool true] ⟨"", []⟩
      = .ok (Value.none, ⟨"" ++ "true", []⟩) := by
  simpa using (claim_C3_amended [Value.bool true] ⟨"", []⟩).2.1 true [] rfl

/-- Claim C5, counterexample: `add` with exactly one argument is not the
built-in's fatal argument error — the `if not args:` guard at src/z.py
line 236 only catches zero arguments, and `args[1]` then raises an
uncaught host `IndexError`. -/
theorem claim_C5_counterexample :
    zadd [Value.int 3] ⟨"", []⟩ = .error (.hostCrash "IndexError") ∧
    zadd [Value.int 3] ⟨"", []⟩
      ≠ .error (.fatal "No arguments provided to function add.") := by
  refine ⟨rfl, ?_⟩
  intro h
  injection h with h2
  cases h2

/-- Claim C5 (amended): `add` with zero arguments is the fatal
"No arguments" error; with exactly one argument it is an uncaught host
`IndexError` crash rather than the built-in's argument error; with two or
more arguments it returns the host sum of the first two. -/
theorem claim_C5_amended (args : List Value) (w : World) :
    (args = [] →
      zadd args w = .error (.fatal "No arguments provided to function add.")) ∧
    (∀ a, args = [a] → zadd args w = .error (.hostCrash "IndexError")) ∧
    (∀ a b rest, args = a :: b :: rest →
      zadd args w = (pyAdd a b).map (fun v => (v, w))) := by
  refine ⟨?_, ?_, ?_⟩
  · intro h; subst h; rfl
  · intro a h; subst h; rfl
  · intro a b rest h; subst h; rfl

/-- Claim C5, witness: `add(2, 3)` is the host sum `5`. -/
theorem claim_C5_witness :
    zadd [Value.int 2, Value.int 3] ⟨"", []⟩ = .ok (Value.int 5, ⟨"", []⟩) := by
  have h := (claim_C5_amended [Value.int 2, Value.int 3] ⟨"", []⟩).2.2
    (Value.int 2) (Value.int 3) [] rfl
  simpa [pyAdd] using h

/-- Claim C4 (confirmed): if the parsed program has no function named
`main`, `visit_program` fails with the fatal missing-entry-point error
without invoking `run`; otherwise the evaluator is invoked on the
registered `main` (the textually last declaration with that name, which
the registry also maps `"main"` to) with zero arguments. -/
theorem claim_C4 (fuel : Nat) (fns : List Function) (w : World) :
    (findMain fns = Option.none →
      visitProgram fuel fns w = .error (.fatal "Program needs a main function.")) ∧
    (∀ m, findMain fns = some m →
      visitProgram fuel fns w = run (buildRegistry fns) fuel (.user m) [] w ∧
      dictLookup (buildRegistry fns) "main" = some (.user m)) := by
  constructor
  · intro h
    simp only [visitProgram]
    rw [show (programFold fns).2 = Option.none from h]
  · intro m h
    constructor
    · simp only [visitProgram]
      rw [show (programFold fns).2 = some m from h]
      rfl
    · have hsnd := foldl_pstep_snd fns (initFunctions, Option.none)
      have h2 : (match lastDecl fns "main" with
          | some g => some g
          | Option.none => (Option.none : Option Function)) = some m := by
        rw [← hsnd]; exact h
      have hlast : lastDecl fns "main" = some m := by
        cases hl : lastDecl fns "main" with
        | some g => rw [hl] at h2; exact h2
        | none => rw [hl] at h2; cases h2
      show dictLookup (programFold fns).1 "main" = some (.user m)
      rw [programFold, foldl_pstep_fst, regFold_lookup, hlast]

/-- Claim C4, witness: a program whose only declaration is `main` runs
`main` with zero arguments against the registry that maps `"main"` to it. -/
theorem claim_C4_witness :
    visitProgram 1 [⟨"main", Option.none, []⟩] ⟨"", []⟩
      = run (buildRegistry [⟨"main", Option.none, []⟩]) 1
          (.user ⟨"main", Option.none, []⟩) [] ⟨"", []⟩ ∧
    dictLookup (buildRegistry [⟨"main", Option.none, []⟩]) "main"
      = some (.user ⟨"main", Option.none, []⟩) := by
  exact (claim_C4 1 [⟨"main", Option.none, []⟩] ⟨"", []⟩).2
    ⟨"main", Option.none, []⟩ rfl

/-- Claim C6 (confirmed): a `Condition` first evaluates its test; if the
test value is falsy, no body statement runs and the local scope is exactly
what it was before the `Condition` (tests are grammar expressions, which
never write the scope); if truthy, the body statements are evaluated in
order against the very same frame — no new scope is introduced. -/
theorem claim_C6 (functions : Registry) (fuel : Nat) (t : Node) (body : List Node)
    (f : Frame) (w : World) (v : Value) (f1 : Frame) (w1 : World)
    (hexpr : IsExpr t)
    (htest : evaluate functions fuel t f w = .ok (v, f1, w1)) :
    (truthyB v = false →
      evaluate functions fuel (.cond t body) f w = .ok (Value.none, f1, w1) ∧
      f1.scope = f.scope) ∧
    (truthyB v = true →
      evaluate functions fuel (.cond t body) f w = (do
        let (f2, w2) ← evalSeq functions fuel body f1 w1
        Except.ok (Value.astObj, f2, w2))) := by
  have hscope : f1.scope = f.scope := evaluate_expr_scope hexpr htest
  cases hret : truthyB f.ret with
  | true =>
    rw [evaluate_guard hret] at htest
    simp only [Except.ok.injEq, Prod.mk.injEq] at htest
    obtain ⟨hv, hf, hw⟩ := htest
    constructor
    · intro _
      refine ⟨?_, hscope⟩
      rw [evaluate_guard hret, hf, hw]
    · intro htv
      rw [← hv] at htv
      simp [truthyB] at htv
  | false =>
    rw [evaluate_cond hret, htest]
    constructor
    · intro hfv
      simp [bind, Except.bind, hfv, hscope]
    · intro htv
      simp [bind, Except.bind, htv]

/-- Claim C6, witness: a numerically falsy test (`0`) skips the body and
leaves the scope unchanged. -/
theorem claim_C6_witness :
    evaluate [] 0 (.cond (.lit (.int 0)) [.assign "$a" (.lit (.int 1))])
        ⟨[], Value.none⟩ ⟨"", []⟩
      = .ok (Value.none, ⟨[], Value.none⟩, ⟨"", []⟩) ∧
    Frame.scope ⟨[], Value.none⟩ = Frame.scope ⟨[], Value.none⟩ := by
  exact (claim_C6 [] 0 (.lit (.int 0)) [.assign "$a" (.lit (.int 1))]
    ⟨[], Value.none⟩ ⟨"", []⟩ (Value.int 0) ⟨[], Value.none⟩ ⟨"", []⟩
    (IsExpr.lit (.int 0))
    (@evaluate_lit [] 0 ⟨[], Value.none⟩ ⟨"", []⟩ rfl (.int 0))).1 (by decide)

/-- Claim C7 (confirmed): an `Identifier` resolves against the current
invocation's local scope only — `evaluate` closes over the one `local`
dict of its invocation and consults nothing else — returning the bound
value, and failing with the fatal undefined-variable error naming the
variable when no binding exists. -/
theorem claim_C7 (functions : Registry) (fuel : Nat) (name : String) (f : Frame)
    (w : World) (hret : truthyB f.ret = false) :
    (∀ v, dictLookup f.scope name = some v →
      evaluate functions fuel (.ident name) f w = .ok (v, f, w)) ∧
    (dictLookup f.scope name = Option.none →
      evaluate functions fuel (.ident name) f w =
        .error (.fatal ("Undefined variable " ++ name))) := by
  constructor
  · intro v h
    rw [evaluate_ident hret, h]
  · intro h
    rw [evaluate_ident hret, h]

/-- Claim C7, witness: a bound identifier evaluates to its value, an
unbound one to the fatal undefined-variable error. -/
theorem claim_C7_witness :
    evaluate [] 0 (.ident "$x") ⟨[("$x", Value.int 7)], Value.none⟩ ⟨"", []⟩
      = .ok (Value.int 7, ⟨[("$x", Value.int 7)], Value.none⟩, ⟨"", []⟩) ∧
    evaluate [] 0 (.ident "$y") ⟨[("$x", Value.int 7)], Value.none⟩ ⟨"", []⟩
      = .error (.fatal ("Undefined variable " ++ "$y")) := by
  constructor
  · exact (claim_C7 [] 0 "$x" ⟨[("$x", Value.int 7)], Value.none⟩ ⟨"", []⟩ rfl).1
      (Value.int 7) rfl
  · exact (claim_C7 [] 0 "$y" ⟨[("$x", Value.int 7)], Value.none⟩ ⟨"", []⟩ rfl).2
      rfl

/-- Claim C8, counterexample: the registry built for the one-declaration
program `function main() {}` does not have name set `{main}` — the dict is
pre-seeded with the four built-ins (src/z.py lines 241-246). -/
theorem claim_C8_counterexample :
    registryNames (buildRegistry [⟨"main", Option.none, []⟩])
      ≠ ((([⟨"main", Option.none, []⟩] : List Function).map Function.name).toFinset) := by
  decide

/-- Claim C8 (amended): the name set of the constructed registry is the
set of declared function names together with the four built-in names
(declarations shadow built-ins on collision), and for each name the
registered definition is the textually last declaration carrying it
(last-definition-wins). -/
theorem claim_C8_amended (fns : List Function) :
    registryNames (buildRegistry fns)
      = builtinNames ∪ (fns.map Function.name).toFinset ∧
    ∀ n g, lastDecl fns n = some g →
      dictLookup (buildRegistry fns) n = some (.user g) := by
  constructor
  · show registryNames (programFold fns).1 = _
    rw [programFold, foldl_pstep_fst, regFold_names]
    rfl
  · intro n g h
    show dictLookup (programFold fns).1 n = some (.user g)
    rw [programFold, foldl_pstep_fst, regFold_lookup, h]

/-- Claim C8, witness: with two declarations named `dup`, the registry
maps `dup` to the textually last one. -/
theorem claim_C8_witness :
    dictLookup (buildRegistry [⟨"dup", Option.none, []⟩, ⟨"dup", some ["$x"], []⟩]) "dup"
      = some (.user ⟨"dup", some ["$x"], []⟩) := by
  exact (claim_C8_amended [⟨"dup", Option.none, []⟩, ⟨"dup", some ["$x"], []⟩]).2
    "dup" ⟨"dup", some ["$x"], []⟩ rfl

/-- Claim C9 (confirmed): once the pending return value is truthy, every
`evaluate` call in that invocation returns immediately with no effect
(guard at src/z.py line 165) — in particular the rest of a `Condition`
body in progress and the rest of the top-level statement list do nothing —
the invocation's result is the final pending value, and a callee's pending
return never touches its caller's frame: `run` neither receives nor
returns a frame, so the caller's frame after a call is exactly the frame
its argument evaluation produced. -/
theorem claim_C9 :
    (∀ (functions : Registry) (fuel : Nat) (n : Node) (f : Frame) (w : World),
      truthyB f.ret = true → evaluate functions fuel n f w = .ok (Value.none, f, w)) ∧
    (∀ (functions : Registry) (fuel : Nat) (body : List Node) (f : Frame) (w : World),
      truthyB f.ret = true → evalSeq functions fuel body f w = .ok (f, w)) ∧
    (∀ (functions : Registry) (fuel : Nat) (stmts : List Node) (f : Frame) (w : World),
      truthyB f.ret = true → runBody functions fuel stmts f w = .ok (f, w)) ∧
    (∀ (functions : Registry) (fuel : Nat) (fn : Function) (w : World) (f1 : Frame)
      (w1 : World),
      runBody functions fuel fn.stmts ⟨[], Value.none⟩ w = .ok (f1, w1) →
      run functions (fuel + 1) (.user fn) [] w = .ok (f1.ret, w1)) ∧
    (∀ (functions : Registry) (fuel : Nat) (name : String) (ps : Option Node)
      (f : Frame) (w : World) (target : FuncDef),
      truthyB f.ret = false → name ≠ "return" →
      dictLookup functions name = some target →
      evaluate functions fuel (.fcall name ps) f w = (do
        let (pv, f1, w1) ← evalParams functions fuel ps f w
        let (rv, w2) ← run functions fuel target (unpackArgs pv) w1
        Except.ok (rv, f1, w2))) := by
  refine ⟨?_, ?_, ?_, ?_, ?_⟩
  · intro functions fuel n f w h
    exact evaluate_guard h
  · intro functions fuel body f w h
    exact evalSeq_guard body h
  · intro functions fuel stmts f w h
    exact runBody_guard stmts h
  · intro functions fuel fn w f1 w1 h
    rw [run_user]
    simp [mkScope, bind, Except.bind, h]
  · intro functions fuel name ps f w target hret hname hlook
    exact evaluate_fcall hret hname hlook ps

/-- Claim C9, witness: with a truthy pending return (`5`), an assignment
statement has no effect at all. -/
theorem claim_C9_witness :
    evaluate [] 0 (.assign "$a" (.lit (.int 1))) ⟨[], Value.int 5⟩ ⟨"", []⟩
      = .ok (Value.none, ⟨[], Value.int 5⟩, ⟨"", []⟩) := by
  exact claim_C9.1 [] 0 (.assign "$a" (.lit (.int 1))) ⟨[], Value.int 5⟩ ⟨"", []⟩
    (by decide)

/-- Claim C10 (confirmed): every built-in ignores surplus arguments — each
behaves identically to its call on just the arguments it uses (`not` uses
one, negating its truthiness; `print` one; `add` two; `get` none) — so
extra arguments never cause an error. -/
theorem claim_C10 (a b : Value) (rest args : List Value) (w : World) :
    znot (a :: rest) w = znot [a] w ∧
    znot (a :: rest) w = .ok (Value.bool (!truthyB a), w) ∧
    zprint (a :: rest) w = zprint [a] w ∧
    zadd (a :: b :: rest) w = zadd [a, b] w ∧
    zget args w = zget [] w := by
  refine ⟨rfl, rfl, ?_, rfl, rfl⟩
  cases a <;> rfl

end Z
